import Mathlib

/-!
Verification development for the WhatsApp chat parser and its analytics.

The definitions below are a shallow embedding of `utils/parser.py`
(`parse_whatsapp_chat`, `parse_timestamp`, `is_system_message`,
`get_participants`, `get_chat_stats`) and of `utils/analytics.py`
(`count_word`).  Strings are modelled as Lean `String`s (lists of Unicode
code points), Python `None` as `Option`, and a pandas `DataFrame` as a
record of column names plus a list of rows.  Digits are modelled as the
ASCII digits `0`-`9` and case folding as ASCII case folding; the phrases
and formats appearing in the source are ASCII, so this matches the
behaviour of the Python code on its intended inputs.
-/

namespace ChatStalker

/-- Whitespace as classified by Python: `str.strip`, `str.isspace` and the
regex class for whitespace all accept the ASCII whitespace characters, the
information separators, NEL, NBSP and the Unicode space separators. -/
def pyIsSpace (c : Char) : Bool :=
  let n := c.toNat
  decide ((9 ≤ n ∧ n ≤ 13) ∨ n = 32 ∨ (28 ≤ n ∧ n ≤ 31) ∨ n = 133 ∨ n = 160 ∨
    n = 0x1680 ∨ (0x2000 ≤ n ∧ n ≤ 0x200a) ∨ n = 0x2028 ∨ n = 0x2029 ∨
    n = 0x202f ∨ n = 0x205f ∨ n = 0x3000)

/-- List-level model of Python `str.strip()`: drop whitespace from both ends. -/
def pyStripList (l : List Char) : List Char :=
  ((l.dropWhile pyIsSpace).reverse.dropWhile pyIsSpace).reverse

/-- Model of Python `str.strip()`. -/
def pyStrip (s : String) : String :=
  String.mk (pyStripList s.data)

/-- Model of Python `str.lower()` (ASCII case folding; all the literals the
source compares against are ASCII). -/
def lowerStr (s : String) : String :=
  String.mk (s.data.map Char.toLower)

/-- A naive wall-clock timestamp, as produced by `datetime.strptime`. -/
structure DateTime where
  year : Nat
  month : Nat
  day : Nat
  hour : Nat
  minute : Nat
  second : Nat
deriving DecidableEq

/-- Chronological order on timestamps (lexicographic on the components,
which is how Python `datetime` objects compare). -/
def dtLeP (a b : DateTime) : Prop :=
  a.year < b.year ∨ (a.year = b.year ∧ (a.month < b.month ∨ (a.month = b.month ∧
    (a.day < b.day ∨ (a.day = b.day ∧ (a.hour < b.hour ∨ (a.hour = b.hour ∧
    (a.minute < b.minute ∨ (a.minute = b.minute ∧ a.second ≤ b.second)))))))))

instance (a b : DateTime) : Decidable (dtLeP a b) := by
  unfold dtLeP; infer_instance

def dtLe (a b : DateTime) : Bool := decide (dtLeP a b)

/-! ### `datetime.strptime`, restricted to the twelve formats of the source

CPython compiles each format directive to a regex fragment:
`%d` is `3[01]|[12]\d|0[1-9]|[1-9]`, `%m` and `%I` are `1[0-2]|0[1-9]|[1-9]`,
`%y` is two digits, `%Y` four digits, `%H` is `2[0-3]|[0-1]\d|\d`,
`%M` is `[0-5]\d|\d`, `%S` is `6[0-1]|[0-5]\d|\d`, `%p` is `am|pm`
case-insensitively, and any run of whitespace in the format becomes `\s+`.
The whole string must be consumed, and the resulting values must form a
valid `datetime` (calendar-valid day, seconds at most 59), otherwise a
`ValueError` is raised and the caller tries the next format.  In the
formats at hand each two-digit alternative is followed by a separator that
can never match a digit, so the ordered regex alternation is equivalent to
the committed choice implemented here. -/

/-- Parsers over a list of remaining characters. -/
abbrev P (α : Type) := StateT (List Char) Option α

def digitVal (c : Char) : Nat := c.toNat - '0'.toNat

/-- Two-digit-preferred numeric field: accept two digits when `ok2` holds of
the value, else one digit when `ok1` holds. -/
def pNum2or1 (ok2 ok1 : Nat → Bool) : P Nat := fun cs =>
  match cs with
  | c1 :: c2 :: r =>
    if c1.isDigit ∧ c2.isDigit ∧ ok2 (10 * digitVal c1 + digitVal c2) then
      some (10 * digitVal c1 + digitVal c2, r)
    else if c1.isDigit ∧ ok1 (digitVal c1) then some (digitVal c1, c2 :: r)
    else none
  | [c1] => if c1.isDigit ∧ ok1 (digitVal c1) then some (digitVal c1, []) else none
  | [] => none

/-- `%d`: day of month, 1-31. -/
def pD : P Nat := pNum2or1 (fun v => decide (1 ≤ v ∧ v ≤ 31)) (fun v => decide (1 ≤ v))

/-- `%m` and `%I`: month / 12-hour clock hour, 1-12. -/
def pM : P Nat := pNum2or1 (fun v => decide (1 ≤ v ∧ v ≤ 12)) (fun v => decide (1 ≤ v))

/-- `%H`: 24-hour clock hour, 0-23. -/
def pH : P Nat := pNum2or1 (fun v => decide (v ≤ 23)) (fun _ => true)

/-- `%M`: minute, 0-59. -/
def pMin : P Nat := pNum2or1 (fun v => decide (v ≤ 59)) (fun _ => true)

/-- `%S`: second; the regex accepts 0-61, leap seconds are rejected later
by the `datetime` constructor. -/
def pSec : P Nat := pNum2or1 (fun v => decide (v ≤ 61)) (fun _ => true)

/-- `%Y`: exactly four digits. -/
def pY4 : P Nat := fun cs =>
  match cs with
  | a :: b :: c :: d :: r =>
    if a.isDigit ∧ b.isDigit ∧ c.isDigit ∧ d.isDigit then
      some (1000 * digitVal a + 100 * digitVal b + 10 * digitVal c + digitVal d, r)
    else none
  | _ => none

/-- `%y`: exactly two digits, mapped into 1969-2068. -/
def pY2 : P Nat := fun cs =>
  match cs with
  | a :: b :: r =>
    if a.isDigit ∧ b.isDigit then
      let v := 10 * digitVal a + digitVal b
      some ((if v ≤ 68 then 2000 + v else 1900 + v), r)
    else none
  | _ => none

/-- A literal character of the format string. -/
def pLit (c : Char) : P Unit := fun cs =>
  match cs with
  | d :: r => if d = c then some ((), r) else none
  | [] => none

/-- A whitespace run in the format string, compiled by CPython to one or
more whitespace characters. -/
def pWs1 : P Unit := fun cs =>
  match cs with
  | c :: r => if pyIsSpace c then some ((), r.dropWhile pyIsSpace) else none
  | [] => none

/-- `%p`: `am` or `pm`, case-insensitively; `true` means PM. -/
def pAmPm : P Bool := fun cs =>
  match cs with
  | a :: b :: r =>
    if Char.toLower b = 'm' then
      if Char.toLower a = 'a' then some (false, r)
      else if Char.toLower a = 'p' then some (true, r)
      else none
    else none
  | _ => none

/-- One entry of the `formats` list of `parse_timestamp`, described by its
four axes: field order, year width, 12- versus 24-hour clock, seconds. -/
structure Layout where
  dayFirst : Bool
  yearFour : Bool
  meridiem : Bool
  withSeconds : Bool
deriving DecidableEq

/-- Date part `%d/%m/<year>` or `%m/%d/<year>`, returning (year, month, day). -/
def pDate (l : Layout) : P (Nat × Nat × Nat) := do
  let a ← if l.dayFirst then pD else pM
  pLit '/'
  let b ← if l.dayFirst then pM else pD
  pLit '/'
  let y ← if l.yearFour then pY4 else pY2
  if l.dayFirst then pure (y, b, a) else pure (y, a, b)

/-- Time part, returning (hour, minute, second); for meridiem layouts the
hour is converted to the 24-hour clock the way `_strptime` does. -/
def pTime (l : Layout) : P (Nat × Nat × Nat) := do
  if l.meridiem then
    let h ← pM
    pLit ':'
    let mi ← pMin
    let s ← if l.withSeconds then do pLit ':'; pSec else pure 0
    pWs1
    let pm ← pAmPm
    let h24 := if pm then (if h = 12 then 12 else h + 12)
               else (if h = 12 then 0 else h)
    pure (h24, mi, s)
  else
    let h ← pH
    pLit ':'
    let mi ← pMin
    let s ← if l.withSeconds then do pLit ':'; pSec else pure 0
    pure (h, mi, s)

def layoutParser (l : Layout) : P DateTime := do
  let (y, m, d) ← pDate l
  pLit ','
  pWs1
  let (h, mi, s) ← pTime l
  pure ⟨y, m, d, h, mi, s⟩

def isLeapYear (y : Nat) : Bool :=
  decide (y % 4 = 0 ∧ (y % 100 ≠ 0 ∨ y % 400 = 0))

def daysInMonth (y m : Nat) : Nat :=
  if m = 2 then (if isLeapYear y then 29 else 28)
  else if m = 4 ∨ m = 6 ∨ m = 9 ∨ m = 11 then 30
  else 31

/-- The validation performed by the `datetime` constructor on the fields
that the format regexes do not already constrain. -/
def validDateTime (t : DateTime) : Bool :=
  decide (1 ≤ t.year ∧ t.day ≤ daysInMonth t.year t.month ∧ t.second ≤ 59)

/-- `datetime.strptime(s, fmt)` for one format: the whole string must be
consumed and the result must be a constructible `datetime`. -/
def runLayout (l : Layout) (s : String) : Option DateTime :=
  match (layoutParser l).run s.data with
  | some (t, []) => if validDateTime t then some t else none
  | _ => none

/-- The `formats` list of `parse_timestamp`, in source order. -/
def timestampLayouts : List Layout :=
  [⟨true, true, false, false⟩,   -- %d/%m/%Y, %H:%M
   ⟨true, false, false, false⟩,  -- %d/%m/%y, %H:%M
   ⟨false, true, false, false⟩,  -- %m/%d/%Y, %H:%M
   ⟨false, false, false, false⟩, -- %m/%d/%y, %H:%M
   ⟨true, true, false, true⟩,    -- %d/%m/%Y, %H:%M:%S
   ⟨true, false, false, true⟩,   -- %d/%m/%y, %H:%M:%S
   ⟨true, true, true, false⟩,    -- %d/%m/%Y, %I:%M %p
   ⟨true, false, true, false⟩,   -- %d/%m/%y, %I:%M %p
   ⟨false, true, true, false⟩,   -- %m/%d/%Y, %I:%M %p
   ⟨false, false, true, false⟩,  -- %m/%d/%y, %I:%M %p
   ⟨true, true, true, true⟩,     -- %d/%m/%Y, %I:%M:%S %p
   ⟨false, false, true, true⟩]   -- %m/%d/%y, %I:%M:%S %p

/-- The cleaning step of `parse_timestamp`: strip, then replace the narrow
no-break space and the no-break space by a plain space. -/
def cleanTimestamp (s : String) : String :=
  String.mk ((pyStrip s).data.map
    (fun c => if c.toNat = 0x202f ∨ c.toNat = 0xa0 then ' ' else c))

/-- `parse_timestamp` from `utils/parser.py`: try the formats in order,
return the first success, else `None`. -/
def parse_timestamp (s : String) : Option DateTime :=
  timestampLayouts.findSome? (fun l => runLayout l (cleanTimestamp s))

/-! ### The two header patterns

Pattern 1 is
`(\d{1,2}/\d{1,2}/\d{2,4},\s*\d{1,2}:\d{2}(?::\d{2})?(?:\s*[APap][Mm])?)\s*-\s*([^:]+):\s*(.*)`
and pattern 2 wraps the same date-time group in square brackets, followed by
`\s*([^:]+):\s*(.*)`.  `re.match` anchors at the start of the line; lines
are obtained from `split('\n')`, so `.` and `[^:]` reach up to the end of
the line.  The regexes are compiled here by hand into deterministic
matchers.  Greedy backtracking has been resolved case by case: a bounded
digit run followed by a required separator matches exactly when the maximal
digit run has a length in the bounds and is followed by the separator; the
optional seconds and meridiem groups match whenever their content is
present (when present but skipped, the `-` or `]` that must follow can
never match the leftover `:` or letter); and in `\s*([^:]+):`, when the
first non-whitespace character is `:` the engine gives back one whitespace
character so that `[^:]+` matches that single whitespace character. -/

/-- A digit run of length between `lo` and `hi` followed by the literal
`sep`.  Returns the consumed characters (including `sep`) and the rest. -/
def matchNumSep (lo hi : Nat) (sep : Char) (cs : List Char) :
    Option (List Char × List Char) :=
  let ds := cs.takeWhile Char.isDigit
  if lo ≤ ds.length ∧ ds.length ≤ hi then
    match cs.drop ds.length with
    | c :: r2 => if c = sep then some (ds ++ [c], r2) else none
    | [] => none
  else none

/-- The optional seconds group `(?::\d{2})?`. -/
def matchOptSeconds : List Char → List Char × List Char
  | ':' :: a :: b :: r =>
    if a.isDigit ∧ b.isDigit then ([':', a, b], r) else ([], ':' :: a :: b :: r)
  | cs => ([], cs)

/-- The optional meridiem group `(?:\s*[APap][Mm])?`. -/
def matchOptMeridiem (cs : List Char) : List Char × List Char :=
  let w := cs.takeWhile pyIsSpace
  match cs.drop w.length with
  | a :: b :: r =>
    if (a = 'A' ∨ a = 'P' ∨ a = 'a' ∨ a = 'p') ∧ (b = 'M' ∨ b = 'm') then
      (w ++ [a, b], r)
    else ([], cs)
  | _ => ([], cs)

/-- The date-time capture group shared by both patterns:
`\d{1,2}/\d{1,2}/\d{2,4},\s*\d{1,2}:\d{2}(?::\d{2})?(?:\s*[APap][Mm])?`.
Returns the captured characters and the rest of the line. -/
def matchTimestampToken (cs : List Char) : Option (List Char × List Char) := do
  let (t1, r1) ← matchNumSep 1 2 '/' cs
  let (t2, r2) ← matchNumSep 1 2 '/' r1
  let (t3, r3) ← matchNumSep 2 4 ',' r2
  let w := r3.takeWhile pyIsSpace
  let (t4, r4) ← matchNumSep 1 2 ':' (r3.drop w.length)
  match r4 with
  | m1 :: m2 :: r5 =>
    if m1.isDigit ∧ m2.isDigit then
      let (t5, r6) := matchOptSeconds r5
      let (t6, r7) := matchOptMeridiem r6
      some (t1 ++ t2 ++ t3 ++ w ++ t4 ++ [m1, m2] ++ t5 ++ t6, r7)
    else none
  | _ => none

/-- The tail `\s*([^:]+):\s*(.*)` shared by both patterns.  Returns the
sender capture and the body capture. -/
def matchSenderBody (cs : List Char) : Option (List Char × List Char) :=
  let w := cs.takeWhile pyIsSpace
  match cs.drop w.length with
  | ':' :: rest =>
    -- `[^:]+` needs at least one character: the engine backtracks `\s*` by
    -- one and the sender capture is that single whitespace character.
    match w.getLast? with
    | some c => some ([c], rest.dropWhile pyIsSpace)
    | none => none
  | r =>
    let sdr := r.takeWhile (fun c => decide (c ≠ ':'))
    match r.drop sdr.length with
    | ':' :: rest =>
      if sdr.isEmpty then none else some (sdr, rest.dropWhile pyIsSpace)
    | _ => none

/-- Pattern 1: `<date-time> - <sender>: <body>`.  Returns the three captures
(timestamp token, sender, body). -/
def matchPattern1 (line : String) : Option (String × String × String) := do
  let (ts, rest) ← matchTimestampToken line.data
  let w := rest.takeWhile pyIsSpace
  match rest.drop w.length with
  | '-' :: r2 => do
    let (sdr, body) ← matchSenderBody r2
    pure (String.mk ts, String.mk sdr, String.mk body)
  | _ => none

/-- Pattern 2: `[<date-time>] <sender>: <body>`. -/
def matchPattern2 (line : String) : Option (String × String × String) :=
  match line.data with
  | '[' :: cs => do
    let (ts, rest) ← matchTimestampToken cs
    match rest with
    | ']' :: r2 => do
      let (sdr, body) ← matchSenderBody r2
      pure (String.mk ts, String.mk sdr, String.mk body)
    | _ => none
  | _ => none

/-- The pattern loop of `parse_whatsapp_chat`: try pattern 1, then pattern 2;
the first structural match wins. -/
def matchHeader (line : String) : Option (String × String × String) :=
  match matchPattern1 line with
  | some r => some r
  | none => matchPattern2 line

/-! ### `is_system_message` -/

/-- The `system_indicators` list of the source, verbatim. -/
def system_indicators : List String :=
  ["Messages and calls are end-to-end encrypted",
   "created group",
   "added you",
   "removed you",
   "left the group",
   "changed the subject",
   "changed this group",
   "changed the group",
   "deleted this message",
   "This message was deleted",
   "<Media omitted>",
   "missed voice call",
   "missed video call"]

/-- Contiguous-sublist test on lists. -/
def isInfixB (needle : List Char) : List Char → Bool
  | [] => needle.isEmpty
  | c :: rest => List.isPrefixOf needle (c :: rest) || isInfixB needle rest

/-- Python `needle in hay` on strings: contiguous substring test. -/
def strContainsSub (hay needle : String) : Bool :=
  isInfixB needle.data hay.data

/-- `is_system_message(sender, message)`: build `"{sender}: {message}"` and
test case-insensitively for any of the indicator phrases. -/
def is_system_message (sender message : String) : Bool :=
  let full := sender ++ ": " ++ message
  system_indicators.any (fun ind => strContainsSub (lowerStr full) (lowerStr ind))

/-! ### The line state machine of `parse_whatsapp_chat` -/

/-- One reconstructed chat message (one row of the output table). -/
structure Message where
  timestamp : Option DateTime
  sender : String
  message : String
deriving DecidableEq

/-- The output table: pandas `DataFrame` modelled as its column names plus
its rows. -/
structure DataFrame where
  columns : List String
  rows : List Message
deriving DecidableEq

/-- The body of the `for line in lines` loop: the state is the pair
(messages accumulated so far, message currently being held). -/
def step (st : List Message × Option Message) (line : String) :
    List Message × Option Message :=
  match matchHeader line with
  | some (ts, sender, body) =>
    -- a header matched: finalize the held message, then start a new one
    -- unless the classifier flags it as a system notice
    let acc := st.1 ++ st.2.toList
    let s := pyStrip sender
    if is_system_message s body then (acc, none)
    else (acc, some ⟨parse_timestamp ts, s, pyStrip body⟩)
  | none =>
    match st.2 with
    | some cur =>
      if pyStrip line = "" then st
      else (st.1, some ⟨cur.timestamp, cur.sender, cur.message ++ "\n" ++ pyStrip line⟩)
    | none => st

/-- Run the loop over all lines and finalize the trailing held message. -/
def parseLines (lines : List String) : List Message :=
  let fin := lines.foldl step ([], none)
  fin.1 ++ fin.2.toList

/-- Python `split('\n')` at the character level: split at every newline,
keeping empty pieces; the empty string gives one empty piece. -/
def splitNl : List Char → List (List Char)
  | [] => [[]]
  | c :: r =>
    if c = '\n' then [] :: splitNl r
    else
      match splitNl r with
      | h :: t => (c :: h) :: t
      | [] => [[c]]

/-- `content.split('\n')`. -/
def pySplitLines (s : String) : List String :=
  (splitNl s.data).map String.mk

/-- `parse_whatsapp_chat`: split on newlines, run the state machine, build
the `DataFrame`.  A non-empty list of row dicts yields the columns
`timestamp, sender, message` in insertion order; the empty case is rebuilt
with the same explicit columns. -/
def parse_whatsapp_chat (content : String) : DataFrame :=
  let msgs := parseLines (pySplitLines content)
  if msgs.isEmpty then ⟨["timestamp", "sender", "message"], []⟩
  else ⟨["timestamp", "sender", "message"], msgs⟩

/-! ### `get_participants` and `get_chat_stats` -/

/-- pandas `Series.unique`: distinct values in first-appearance order. -/
def uniqueFirst (l : List String) : List String :=
  l.foldl (fun acc s => if s ∈ acc then acc else acc ++ [s]) []

/-- Lexicographic comparison of code-point sequences — the order Python
uses to compare strings. -/
def charListLe : List Char → List Char → Bool
  | [], _ => true
  | _ :: _, [] => false
  | a :: as, b :: bs =>
    if a < b then true
    else if b < a then false
    else charListLe as bs

/-- Python `a <= b` on strings. -/
def pyStrLe (a b : String) : Prop := charListLe a.data b.data = true

instance : DecidableRel pyStrLe := fun a b => by
  unfold pyStrLe; infer_instance

/-- `get_participants`: unique senders, sorted ascending (Python `sorted`
on strings is lexicographic by code point). -/
def get_participants (df : DataFrame) : List String :=
  if df.rows.isEmpty ∨ "sender" ∉ df.columns then []
  else List.insertionSort pyStrLe (uniqueFirst (df.rows.map Message.sender))

/-- The dict returned by `get_chat_stats`. -/
structure ChatStats where
  total_messages : Nat
  participants : Nat
  date_range : String
deriving DecidableEq

/-- `%b`: abbreviated month name in the C locale. -/
def monthAbbr : Nat → String
  | 1 => "Jan" | 2 => "Feb" | 3 => "Mar" | 4 => "Apr" | 5 => "May" | 6 => "Jun"
  | 7 => "Jul" | 8 => "Aug" | 9 => "Sep" | 10 => "Oct" | 11 => "Nov" | 12 => "Dec"
  | _ => ""

def pad2 (n : Nat) : String := if n < 10 then "0" ++ toString n else toString n

def pad4 (n : Nat) : String :=
  if n < 10 then "000" ++ toString n
  else if n < 100 then "00" ++ toString n
  else if n < 1000 then "0" ++ toString n
  else toString n

/-- `strftime('%b %d, %Y')`: abbreviated month, zero-padded day, year.
CPython delegates `%Y` to the platform: years below 1000 print unpadded
under glibc but zero-padded elsewhere; the model uses the zero-padded form,
and the difference is invisible for the four-digit years at issue. -/
def fmtDate (t : DateTime) : String :=
  monthAbbr t.month ++ " " ++ pad2 t.day ++ ", " ++ pad4 t.year

def dtMin (a b : DateTime) : DateTime := if dtLe a b then a else b

def dtMax (a b : DateTime) : DateTime := if dtLe a b then b else a

/-- `get_chat_stats`: counts plus a date range built from the minimum and
maximum non-null timestamps (pandas `dropna` then `min`/`max`). -/
def get_chat_stats (df : DataFrame) : ChatStats :=
  if df.rows.isEmpty then ⟨0, 0, "N/A"⟩
  else
    let base : ChatStats :=
      ⟨df.rows.length, (uniqueFirst (df.rows.map Message.sender)).length, "N/A"⟩
    if "timestamp" ∈ df.columns then
      match df.rows.filterMap Message.timestamp with
      | [] => base
      | v :: vs =>
        ⟨base.total_messages, base.participants,
         fmtDate (vs.foldl dtMin v) ++ " - " ++ fmtDate (vs.foldl dtMax v)⟩
    else base

/-! ### `count_word` from `utils/analytics.py` -/

/-- The dict returned by `count_word`; the `by_participant` dict is ordered,
so it is modelled as an association list in insertion order. -/
structure WordCount where
  total : Nat
  by_participant : List (String × Nat)
deriving DecidableEq

/-- Non-overlapping occurrences of the non-empty pattern `w` in `s`,
scanning left to right — the semantics of `findall` on an escaped literal.
The extra fuel argument (any value at least the length of `s`, which
shrinks by at least one per step) makes the recursion structural. -/
def countOccAux (w : List Char) : Nat → List Char → Nat
  | 0, _ => 0
  | _, [] => 0
  | fuel + 1, c :: rest =>
    if List.isPrefixOf w (c :: rest) then
      1 + countOccAux w fuel (rest.drop (w.length - 1))
    else countOccAux w fuel rest

/-- `len(re.compile(re.escape(word), re.IGNORECASE).findall(msg))`: the
empty pattern matches once at every position (`len(msg) + 1` matches);
otherwise case-insensitive literal counting. -/
def pyCountMatches (word msg : String) : Nat :=
  match (lowerStr word).data with
  | [] => msg.data.length + 1
  | w => countOccAux w (lowerStr msg).data.length (lowerStr msg).data

/-- The participant filter of `count_word`: `if participant and participant
!= 'All'` is Python truthiness, so `None` and the empty string are falsy
and the sentinel `'All'` also means "no restriction". -/
def filterRows (rows : List Message) (participant : Option String) : List Message :=
  match participant with
  | some p =>
    if p ≠ "" ∧ p ≠ "All" then rows.filter (fun m : Message => decide (m.sender = p))
    else rows
  | none => rows

/-- `count_word(df, word, participant)`.  pandas `groupby` sorts the group
keys ascending; the result is then sorted by count descending (stable) and
zero counts are removed. -/
def count_word (df : DataFrame) (word : String) (participant : Option String) :
    WordCount :=
  if df.rows.isEmpty ∨ "message" ∉ df.columns then ⟨0, []⟩
  else
    let filtered := filterRows df.rows participant
    if filtered.isEmpty then ⟨0, []⟩
    else
      let counts := filtered.map
        (fun m : Message => (m.sender, pyCountMatches word m.message))
      let keys := List.insertionSort pyStrLe (uniqueFirst (filtered.map Message.sender))
      let grouped := keys.map
        (fun k => (k, ((counts.filter (fun e : String × Nat => decide (e.1 = k))).map Prod.snd).sum))
      let sorted := List.insertionSort (fun a b : String × Nat => b.2 ≤ a.2) grouped
      ⟨(counts.map Prod.snd).sum,
       sorted.filter (fun e : String × Nat => decide (0 < e.2))⟩

/-! ## Lemmas about the state machine -/

/-- A line matching no header pattern is dropped when no message is held. -/
theorem step_none_of_no_header (acc : List Message) (line : String)
    (h : matchHeader line = none) : step (acc, none) line = (acc, none) := by
  simp [step, h]

/-- A run of lines matching no header pattern leaves a header-less state
unchanged. -/
theorem foldl_no_header (lines : List String) (acc : List Message)
    (h : ∀ l ∈ lines, matchHeader l = none) :
    lines.foldl step (acc, none) = (acc, none) := by
  induction lines with
  | nil => rfl
  | cons l ls ih =>
    have hl : matchHeader l = none := h l (by simp)
    simp only [List.foldl_cons, step_none_of_no_header _ _ hl]
    exact ih (fun x hx => h x (by simp [hx]))

/-- The rows of the output table are exactly the messages produced by the
line loop (the empty special case rebuilds the same empty row list). -/
theorem rows_parse (content : String) :
    (parse_whatsapp_chat content).rows = parseLines (pySplitLines content) := by
  unfold parse_whatsapp_chat
  by_cases h : (parseLines (pySplitLines content)).isEmpty
  · simp [h, List.isEmpty_iff.mp h]
  · simp [h]

/-- The output table always carries the three canonical columns. -/
theorem columns_parse (content : String) :
    (parse_whatsapp_chat content).columns = ["timestamp", "sender", "message"] := by
  unfold parse_whatsapp_chat
  by_cases h : (parseLines (pySplitLines content)).isEmpty <;> simp [h]

/-! ## Claims -/

/-- Claim C1: a header line that is not system-classified, followed by two
lines matching no header pattern and each containing non-whitespace
content, produces exactly one Message whose body is the header body and the
two continuation lines, each trimmed, joined by newlines. -/
theorem c1_continuation_roundtrip
    (content l1 l2 l3 ts s b : String)
    (hsplit : pySplitLines content = [l1, l2, l3])
    (h1 : matchHeader l1 = some (ts, s, b))
    (hsys : is_system_message (pyStrip s) b = false)
    (h2 : matchHeader l2 = none) (h3 : matchHeader l3 = none)
    (n2 : ¬ pyStrip l2 = "") (n3 : ¬ pyStrip l3 = "") :
    (parse_whatsapp_chat content).rows =
      [⟨parse_timestamp ts, pyStrip s,
        pyStrip b ++ "\n" ++ pyStrip l2 ++ "\n" ++ pyStrip l3⟩] := by
  rw [rows_parse, hsplit]
  simp [parseLines, step, h1, h2, h3, hsys, n2, n3]

/-- Evaluation of `step` on a system-classified header line. -/
theorem step_eq_header_sys (st : List Message × Option Message) (line ts s b : String)
    (hm : matchHeader line = some (ts, s, b))
    (hsys : is_system_message (pyStrip s) b = true) :
    step st line = (st.1 ++ st.2.toList, none) := by
  simp [step, hm, hsys]

/-- Evaluation of `step` on a user header line. -/
theorem step_eq_header_user (st : List Message × Option Message) (line ts s b : String)
    (hm : matchHeader line = some (ts, s, b))
    (hsys : is_system_message (pyStrip s) b = false) :
    step st line =
      (st.1 ++ st.2.toList, some ⟨parse_timestamp ts, pyStrip s, pyStrip b⟩) := by
  simp [step, hm, hsys]

/-- Already-finalized messages commute with `step`: the loop only ever
appends to the accumulator. -/
theorem step_prefix (A X : List Message) (c : Option Message) (line : String) :
    step (A ++ X, c) line = (A ++ (step (X, c) line).1, (step (X, c) line).2) := by
  unfold step
  cases hm : matchHeader line with
  | some r =>
    obtain ⟨ts, s, b⟩ := r
    by_cases hsys : is_system_message (pyStrip s) b <;> simp [hsys, List.append_assoc]
  | none =>
    cases c with
    | none => rfl
    | some cur =>
      by_cases hblank : pyStrip line = "" <;> simp [hblank]

/-- Folding from a state that already holds finalized messages `A` just
prepends `A` to the result of folding from the rest of the state. -/
theorem foldl_step_prefix (lines : List String) :
    ∀ (A X : List Message) (c : Option Message),
      lines.foldl step (A ++ X, c) =
        (A ++ (lines.foldl step (X, c)).1, (lines.foldl step (X, c)).2) := by
  induction lines with
  | nil => intro A X c; rfl
  | cons l ls ih =>
    intro A X c
    rw [List.foldl_cons, step_prefix, List.foldl_cons]
    exact ih A (step (X, c) l).1 (step (X, c) l).2

/-- Special case: folding from `(A, none)` is `A` plus a fresh fold. -/
theorem foldl_step_start (lines : List String) (A : List Message) :
    lines.foldl step (A, none) =
      (A ++ (lines.foldl step ([], none)).1, (lines.foldl step ([], none)).2) := by
  have h := foldl_step_prefix lines A [] none
  rw [List.append_nil] at h
  exact h

/-- Claim C2: a header line classified as a system notice contributes no
Message; the Message held just before it is still finalized and appended;
and the following lines that match no header pattern — up to the next
header — are dropped rather than appended to anything.  The remainder
`rest` of the input (beginning at the next header line, if any) is parsed
from a fresh state, so the output is exactly the prefix's messages
followed by the remainder's messages: nothing from the system line or the
dropped lines ever appears. -/
theorem c2_system_line_suppressed
    (content : String) (pre mid rest : List String) (line ts s b : String)
    (hsplit : pySplitLines content = pre ++ line :: (mid ++ rest))
    (hm : matchHeader line = some (ts, s, b))
    (hsys : is_system_message (pyStrip s) b = true)
    (hmid : ∀ l ∈ mid, matchHeader l = none) :
    (parse_whatsapp_chat content).rows =
      ((pre.foldl step ([], none)).1 ++ (pre.foldl step ([], none)).2.toList) ++
        parseLines rest := by
  rw [rows_parse, hsplit]
  have hPL : ∀ ls : List String, parseLines ls =
      (ls.foldl step ([], none)).1 ++ (ls.foldl step ([], none)).2.toList :=
    fun ls => rfl
  rw [hPL (pre ++ line :: (mid ++ rest)), hPL rest]
  rw [List.foldl_append, List.foldl_cons,
    step_eq_header_sys _ line ts s b hm hsys,
    List.foldl_append, foldl_no_header _ _ hmid,
    foldl_step_start]
  rw [List.append_assoc]

/-- Claim C3: a line matching a header pattern whose date/time token parses
under no layout still yields a Message with a null timestamp and the
captured sender and body (no error, no fallback); and whenever the first
pattern matches, its captures are the ones used — the second pattern is
never consulted. -/
theorem c3_unparseable_timestamp_tolerated :
    (∀ (line ts s b : String), matchHeader line = some (ts, s, b) →
        parse_timestamp ts = none →
        is_system_message (pyStrip s) b = false →
        parseLines [line] = [⟨none, pyStrip s, pyStrip b⟩]) ∧
    (∀ (line : String) (r : String × String × String),
        matchPattern1 line = some r → matchHeader line = some r) := by
  constructor
  · intro line ts s b hm hts hsys
    simp [parseLines, step, hm, hts, hsys]
  · intro line r h
    simp [matchHeader, h]

/-- Claim C6: when no line of the input matches a header pattern, the
parse returns the empty table with the three canonical columns. -/
theorem c6_no_header_empty_table
    (content : String)
    (h : ∀ l ∈ pySplitLines content, matchHeader l = none) :
    parse_whatsapp_chat content = ⟨["timestamp", "sender", "message"], []⟩ := by
  have hrows : parseLines (pySplitLines content) = [] := by
    unfold parseLines
    rw [foldl_no_header _ _ h]
    rfl
  unfold parse_whatsapp_chat
  simp [hrows]

/-- Witness for C1 at a concrete three-line input. -/
theorem c1_witness :
    (parse_whatsapp_chat "12/05/2023, 14:30 - Alice: hello\nsecond line\nthird line").rows =
      [⟨parse_timestamp "12/05/2023, 14:30", pyStrip "Alice",
        pyStrip "hello" ++ "\n" ++ pyStrip "second line" ++ "\n" ++ pyStrip "third line"⟩] :=
  c1_continuation_roundtrip _ "12/05/2023, 14:30 - Alice: hello" "second line" "third line"
    "12/05/2023, 14:30" "Alice" "hello" (by decide) (by decide) (by decide) (by decide)
    (by decide) (by decide) (by decide)

/-- Witness for C2: a `<Media omitted>` header line in the middle of a
chat — after a normal message, followed by a stray line that is dropped and
then by the next header line, which is parsed normally. -/
theorem c2_witness :
    (parse_whatsapp_chat
        "1/1/24, 9:00 - Ann: hi\n1/1/24, 9:01 - Bob: <Media omitted>\ntrailing junk\n1/1/24, 9:02 - Cara: yo").rows =
      ((["1/1/24, 9:00 - Ann: hi"].foldl step ([], none)).1 ++
        (["1/1/24, 9:00 - Ann: hi"].foldl step ([], none)).2.toList) ++
        parseLines ["1/1/24, 9:02 - Cara: yo"] :=
  c2_system_line_suppressed _ ["1/1/24, 9:00 - Ann: hi"] ["trailing junk"]
    ["1/1/24, 9:02 - Cara: yo"]
    "1/1/24, 9:01 - Bob: <Media omitted>" "1/1/24, 9:01" "Bob" "<Media omitted>"
    (by decide) (by decide) (by decide) (by decide)

/-- Witness for C3 at a header whose token parses under no layout. -/
theorem c3_witness :
    parseLines ["99/99/9999, 99:99 - Alice: hi"] = [⟨none, pyStrip "Alice", pyStrip "hi"⟩] :=
  c3_unparseable_timestamp_tolerated.1 "99/99/9999, 99:99 - Alice: hi" "99/99/9999, 99:99"
    "Alice" "hi" (by decide) (by decide) (by decide)

/-- Witness for C6 at the empty input. -/
theorem c6_witness :
    parse_whatsapp_chat "" = ⟨["timestamp", "sender", "message"], []⟩ :=
  c6_no_header_empty_table "" (by decide)

/-! ## Claim C4: `parse_timestamp` coverage -/

/-- A prefix on which `f` always fails does not affect `findSome?`. -/
theorem findSome?_eq_of_prefix_none {α β : Type} (f : α → Option β) :
    ∀ (pre rest : List α), (∀ g ∈ pre, f g = none) →
      (pre ++ rest).findSome? f = rest.findSome? f := by
  intro pre
  induction pre with
  | nil => simp
  | cons a l ih =>
    intro rest h
    have ha : f a = none := h a (by simp)
    rw [List.cons_append, List.findSome?_cons, ha]
    exact ih rest (fun g hg => h g (by simp [hg]))

/-- Counterexample to C4 as stated: the token `5/30/2023, 14:30:05` belongs
to the month-first, four-digit-year, 24-hour, with-seconds family (it
parses under that layout), yet `parse_timestamp` returns `None`, because
that layout is absent from the source's format list. -/
theorem c4_counterexample_missing_family :
    parse_timestamp "5/30/2023, 14:30:05" = none ∧
      (runLayout ⟨false, true, false, true⟩ "5/30/2023, 14:30:05").isSome = true ∧
      (⟨false, true, false, true⟩ : Layout) ∉ timestampLayouts := by
  decide

/-- Claim C4 (amended): for every token that, after cleaning, fully matches
one of the twelve layouts that are actually in the source's ordered list,
`parse_timestamp` returns a non-null result, namely the result of the first
layout in the list that matches. -/
theorem c4_first_matching_layout
    (s : String) (l : Layout) (pre suf : List Layout)
    (hlist : timestampLayouts = pre ++ l :: suf)
    (hpre : ∀ g ∈ pre, runLayout g (cleanTimestamp s) = none)
    (hsome : (runLayout l (cleanTimestamp s)).isSome = true) :
    parse_timestamp s = runLayout l (cleanTimestamp s) ∧
      (parse_timestamp s).isSome = true := by
  have heq : parse_timestamp s = runLayout l (cleanTimestamp s) := by
    unfold parse_timestamp
    rw [hlist, findSome?_eq_of_prefix_none _ pre _ hpre, List.findSome?_cons]
    obtain ⟨t, ht⟩ := Option.isSome_iff_exists.mp hsome
    rw [ht]
  exact ⟨heq, heq ▸ hsome⟩

/-- Witness for the amended C4 at a token of the first layout. -/
theorem c4_witness :
    parse_timestamp "12/05/2023, 14:30" = runLayout ⟨true, true, false, false⟩
      (cleanTimestamp "12/05/2023, 14:30") ∧
    (parse_timestamp "12/05/2023, 14:30").isSome = true :=
  c4_first_matching_layout "12/05/2023, 14:30" ⟨true, true, false, false⟩ []
    [⟨true, false, false, false⟩, ⟨false, true, false, false⟩, ⟨false, false, false, false⟩,
     ⟨true, true, false, true⟩, ⟨true, false, false, true⟩, ⟨true, true, true, false⟩,
     ⟨true, false, true, false⟩, ⟨false, true, true, false⟩, ⟨false, false, true, false⟩,
     ⟨true, true, true, true⟩, ⟨false, false, true, true⟩]
    (by decide) (by decide) (by decide)

/-! ## Claim C5: senders in the output -/

/-- Counterexample to C5 as stated: on the header `1/1/2024, 9:00 - : hi`
the sender capture is a single space (the engine backtracks `\s*` so that
`[^:]+` can match), which strips to the empty string — the output contains
a Message whose sender is empty. -/
theorem c5_counterexample_empty_sender :
    (parse_whatsapp_chat "1/1/2024, 9:00 - : hi").rows.map Message.sender = [""] := by
  decide

/-- Every sender stored in the state is the strip of some string. -/
def SenderStripped (m : Message) : Prop := ∃ s0 : String, m.sender = pyStrip s0

theorem step_preserves_stripped (st : List Message × Option Message) (line : String)
    (h1 : ∀ m ∈ st.1, SenderStripped m) (h2 : ∀ m ∈ st.2.toList, SenderStripped m) :
    (∀ m ∈ (step st line).1, SenderStripped m) ∧
      (∀ m ∈ (step st line).2.toList, SenderStripped m) := by
  cases hm : matchHeader line with
  | some r =>
    obtain ⟨ts, s, b⟩ := r
    cases hsys : is_system_message (pyStrip s) b with
    | true =>
      rw [step_eq_header_sys st line ts s b hm hsys]
      refine ⟨fun m hmem => ?_, by simp⟩
      rcases List.mem_append.mp hmem with h | h
      · exact h1 m h
      · exact h2 m h
    | false =>
      rw [step_eq_header_user st line ts s b hm hsys]
      refine ⟨fun m hmem => ?_, fun m hmem => ?_⟩
      · rcases List.mem_append.mp hmem with h | h
        · exact h1 m h
        · exact h2 m h
      · simp only [Option.toList_some, List.mem_singleton] at hmem
        subst hmem
        exact ⟨s, rfl⟩
  | none =>
    cases hc : st.2 with
    | none =>
      have hst : step st line = st := by simp [step, hm, hc]
      rw [hst]; exact ⟨h1, h2⟩
    | some cur =>
      by_cases hblank : pyStrip line = ""
      · have hst : step st line = st := by simp [step, hm, hc, hblank]
        rw [hst]; exact ⟨h1, h2⟩
      · have hst : step st line =
            (st.1, some ⟨cur.timestamp, cur.sender, cur.message ++ "\n" ++ pyStrip line⟩) := by
          simp [step, hm, hc, hblank]
        rw [hst]
        refine ⟨h1, fun m hmem => ?_⟩
        simp only [Option.toList_some, List.mem_singleton] at hmem
        subst hmem
        exact h2 cur (by simp [hc])

theorem foldl_preserves_stripped (lines : List String) :
    ∀ (st : List Message × Option Message),
      (∀ m ∈ st.1, SenderStripped m) → (∀ m ∈ st.2.toList, SenderStripped m) →
      (∀ m ∈ (lines.foldl step st).1, SenderStripped m) ∧
        (∀ m ∈ (lines.foldl step st).2.toList, SenderStripped m) := by
  induction lines with
  | nil => intro st h1 h2; exact ⟨h1, h2⟩
  | cons l ls ih =>
    intro st h1 h2
    rw [List.foldl_cons]
    obtain ⟨g1, g2⟩ := step_preserves_stripped st l h1 h2
    exact ih _ g1 g2

theorem parseLines_sender_stripped (lines : List String) (m : Message)
    (hm : m ∈ parseLines lines) : SenderStripped m := by
  unfold parseLines at hm
  obtain ⟨g1, g2⟩ := foldl_preserves_stripped lines ([], none) (by simp) (by simp)
  rcases List.mem_append.mp hm with h | h
  · exact g1 m h
  · exact g2 m h

/-- The head of `dropWhile p` never satisfies `p`. -/
theorem head_dropWhile_not (p : Char → Bool) (l : List Char) :
    ∀ c, (l.dropWhile p).head? = some c → p c = false := by
  induction l with
  | nil => intro c h; simp [List.dropWhile] at h
  | cons a t ih =>
    intro c h
    rw [List.dropWhile_cons] at h
    split at h
    · exact ih c h
    · next hp =>
      simp only [List.head?_cons, Option.some.injEq] at h
      subst h
      exact Bool.not_eq_true _ ▸ by simpa using hp

/-- `dropWhile` preserves the last element when its result is non-empty. -/
theorem getLast?_dropWhile (p : Char → Bool) (l : List Char) :
    ∀ c, ((l.dropWhile p).getLast? = some c) → l.getLast? = some c := by
  induction l with
  | nil => intro c h; simp [List.dropWhile] at h
  | cons a t ih =>
    intro c h
    rw [List.dropWhile_cons] at h
    split at h
    · have ht := ih c h
      cases t with
      | nil => simp at ht
      | cons b t2 => rw [List.getLast?_cons_cons]; exact ht
    · exact h

theorem pyStripList_head_not_space (l : List Char) (c : Char)
    (h : (pyStripList l).head? = some c) : pyIsSpace c = false := by
  unfold pyStripList at h
  rw [List.head?_reverse] at h
  have h2 := getLast?_dropWhile pyIsSpace _ c h
  rw [List.getLast?_reverse] at h2
  exact head_dropWhile_not pyIsSpace _ c h2

theorem pyStripList_getLast_not_space (l : List Char) (c : Char)
    (h : (pyStripList l).getLast? = some c) : pyIsSpace c = false := by
  unfold pyStripList at h
  rw [List.getLast?_reverse] at h
  exact head_dropWhile_not pyIsSpace _ c h

/-- Claim C5 (amended): every Message in the output has a sender with no
leading and no trailing whitespace (it is a stripped string); the sender
can, however, be empty, as the counterexample shows. -/
theorem c5_sender_trimmed (content : String) (m : Message)
    (hm : m ∈ (parse_whatsapp_chat content).rows) :
    (Option.all (fun c => ! pyIsSpace c) m.sender.data.head?) = true ∧
      (Option.all (fun c => ! pyIsSpace c) m.sender.data.getLast?) = true := by
  rw [rows_parse] at hm
  obtain ⟨s0, hs0⟩ := parseLines_sender_stripped _ m hm
  have hdata : m.sender.data = pyStripList s0.data := by
    rw [hs0]; rfl
  constructor
  · rw [hdata]
    cases hh : (pyStripList s0.data).head? with
    | none => rfl
    | some c =>
      simp only [Option.all_some, Bool.not_eq_true']
      exact pyStripList_head_not_space _ c hh
  · rw [hdata]
    cases hh : (pyStripList s0.data).getLast? with
    | none => rfl
    | some c =>
      simp only [Option.all_some, Bool.not_eq_true']
      exact pyStripList_getLast_not_space _ c hh

/-- Witness for the amended C5 at a concrete parse. -/
theorem c5_witness :
    (Option.all (fun c => ! pyIsSpace c)
        (Message.sender ⟨parse_timestamp "1/1/24, 9:00", "Bob", "hi"⟩).data.head?) = true ∧
      (Option.all (fun c => ! pyIsSpace c)
        (Message.sender ⟨parse_timestamp "1/1/24, 9:00", "Bob", "hi"⟩).data.getLast?) = true :=
  c5_sender_trimmed "1/1/24, 9:00 -  Bob : hi" ⟨parse_timestamp "1/1/24, 9:00", "Bob", "hi"⟩
    (by decide)

/-! ## Order lemmas for timestamps and the fold-based min/max -/

theorem dtLeP_refl (a : DateTime) : dtLeP a a := by
  unfold dtLeP; omega

theorem dtLeP_trans {a b c : DateTime} (h1 : dtLeP a b) (h2 : dtLeP b c) : dtLeP a c := by
  unfold dtLeP at h1 h2 ⊢; omega

theorem dtLeP_total (a b : DateTime) : dtLeP a b ∨ dtLeP b a := by
  unfold dtLeP; omega

theorem dtMin_eq_or (a b : DateTime) : dtMin a b = a ∨ dtMin a b = b := by
  unfold dtMin; split <;> simp

theorem dtMin_le_left (a b : DateTime) : dtLeP (dtMin a b) a := by
  unfold dtMin dtLe
  split
  · exact dtLeP_refl a
  · next h =>
    rcases dtLeP_total a b with hab | hba
    · exact absurd (decide_eq_true hab) h
    · exact hba

theorem dtMin_le_right (a b : DateTime) : dtLeP (dtMin a b) b := by
  unfold dtMin dtLe
  split
  · next h => exact of_decide_eq_true h
  · exact dtLeP_refl b

theorem dtMax_eq_or (a b : DateTime) : dtMax a b = a ∨ dtMax a b = b := by
  unfold dtMax; split <;> simp

theorem dtMax_ge_left (a b : DateTime) : dtLeP a (dtMax a b) := by
  unfold dtMax dtLe
  split
  · next h => exact of_decide_eq_true h
  · exact dtLeP_refl a

theorem dtMax_ge_right (a b : DateTime) : dtLeP b (dtMax a b) := by
  unfold dtMax dtLe
  split
  · exact dtLeP_refl b
  · next h =>
    rcases dtLeP_total a b with hab | hba
    · exact absurd (decide_eq_true hab) h
    · exact hba

/-- The fold with `dtMin` computes a member that is a lower bound. -/
theorem foldl_dtMin_spec (vs : List DateTime) :
    ∀ v : DateTime, (vs.foldl dtMin v = v ∨ vs.foldl dtMin v ∈ vs) ∧
      dtLeP (vs.foldl dtMin v) v ∧ ∀ x ∈ vs, dtLeP (vs.foldl dtMin v) x := by
  induction vs with
  | nil => intro v; exact ⟨Or.inl rfl, dtLeP_refl v, by simp⟩
  | cons w ws ih =>
    intro v
    rw [List.foldl_cons]
    obtain ⟨hmem, hle, hall⟩ := ih (dtMin v w)
    refine ⟨?_, ?_, ?_⟩
    · rcases hmem with h | h
      · rcases dtMin_eq_or v w with h2 | h2
        · exact Or.inl (h.trans h2)
        · exact Or.inr (by rw [h, h2]; exact List.mem_cons_self w ws)
      · exact Or.inr (List.mem_cons_of_mem w h)
    · exact dtLeP_trans hle (dtMin_le_left v w)
    · intro x hx
      rcases List.mem_cons.mp hx with rfl | hx2
      · exact dtLeP_trans hle (dtMin_le_right v x)
      · exact hall x hx2

/-- The fold with `dtMax` computes a member that is an upper bound. -/
theorem foldl_dtMax_spec (vs : List DateTime) :
    ∀ v : DateTime, (vs.foldl dtMax v = v ∨ vs.foldl dtMax v ∈ vs) ∧
      dtLeP v (vs.foldl dtMax v) ∧ ∀ x ∈ vs, dtLeP x (vs.foldl dtMax v) := by
  induction vs with
  | nil => intro v; exact ⟨Or.inl rfl, dtLeP_refl v, by simp⟩
  | cons w ws ih =>
    intro v
    rw [List.foldl_cons]
    obtain ⟨hmem, hle, hall⟩ := ih (dtMax v w)
    refine ⟨?_, ?_, ?_⟩
    · rcases hmem with h | h
      · rcases dtMax_eq_or v w with h2 | h2
        · exact Or.inl (h.trans h2)
        · exact Or.inr (by rw [h, h2]; exact List.mem_cons_self w ws)
      · exact Or.inr (List.mem_cons_of_mem w h)
    · exact dtLeP_trans (dtMax_ge_left v w) hle
    · intro x hx
      rcases List.mem_cons.mp hx with rfl | hx2
      · exact dtLeP_trans (dtMax_ge_right v x) hle
      · exact hall x hx2

/-! ## Lemmas about `uniqueFirst` -/

theorem uniqueFirst_aux_mem (l : List String) :
    ∀ (acc : List String) (a : String),
      a ∈ l.foldl (fun acc s => if s ∈ acc then acc else acc ++ [s]) acc ↔
        a ∈ acc ∨ a ∈ l := by
  induction l with
  | nil => intro acc a; simp
  | cons s t ih =>
    intro acc a
    rw [List.foldl_cons]
    by_cases hs : s ∈ acc
    · rw [if_pos hs, ih]
      constructor
      · rintro (h | h)
        · exact Or.inl h
        · exact Or.inr (List.mem_cons_of_mem _ h)
      · rintro (h | h)
        · exact Or.inl h
        · rcases List.mem_cons.mp h with rfl | h2
          · exact Or.inl hs
          · exact Or.inr h2
    · rw [if_neg hs, ih]
      simp only [List.mem_append, List.mem_singleton, List.mem_cons]
      tauto

theorem uniqueFirst_aux_nodup (l : List String) :
    ∀ acc : List String,
      acc.Nodup → (l.foldl (fun acc s => if s ∈ acc then acc else acc ++ [s]) acc).Nodup := by
  induction l with
  | nil => intro acc h; exact h
  | cons s t ih =>
    intro acc hacc
    rw [List.foldl_cons]
    by_cases hs : s ∈ acc
    · rw [if_pos hs]; exact ih acc hacc
    · rw [if_neg hs]
      refine ih _ ?_
      rw [List.nodup_append]
      refine ⟨hacc, List.nodup_singleton s, ?_⟩
      intro a ha hb
      rw [List.mem_singleton] at hb
      exact hs (hb ▸ ha)

/-- `charListLe` is total. -/
theorem charListLe_total : ∀ a b : List Char, charListLe a b = true ∨ charListLe b a = true := by
  intro a
  induction a with
  | nil => intro b; exact Or.inl rfl
  | cons x xs ih =>
    intro b
    cases b with
    | nil => exact Or.inr rfl
    | cons y ys =>
      by_cases hxy : x < y
      · left; simp [charListLe, hxy]
      · by_cases hyx : y < x
        · right; simp [charListLe, hyx]
        · rcases ih ys with h | h
          · left; simp [charListLe, hxy, hyx, h]
          · right; simp [charListLe, hyx, hxy, h]

/-- `charListLe` is transitive. -/
theorem charListLe_trans :
    ∀ a b c : List Char, charListLe a b = true → charListLe b c = true →
      charListLe a c = true := by
  intro a
  induction a with
  | nil => intro b c _ _; rfl
  | cons x xs ih =>
    intro b c h1 h2
    cases b with
    | nil => simp [charListLe] at h1
    | cons y ys =>
      cases c with
      | nil => simp [charListLe] at h2
      | cons z zs =>
        by_cases hxy : x < y
        · by_cases hyz : y < z
          · simp [charListLe, lt_trans hxy hyz]
          · by_cases hzy : z < y
            · simp [charListLe, hyz, hzy] at h2
            · have hy : y = z := le_antisymm (le_of_not_lt hzy) (le_of_not_lt hyz)
              subst hy
              simp [charListLe, hxy]
        · by_cases hyx : y < x
          · simp [charListLe, hxy, hyx] at h1
          · have hx : x = y := le_antisymm (le_of_not_lt hyx) (le_of_not_lt hxy)
            subst hx
            simp only [charListLe, hxy, hyx, if_false] at h1
            by_cases hxz : x < z
            · simp [charListLe, hxz]
            · by_cases hzx : z < x
              · simp [charListLe, hxz, hzx] at h2
              · simp only [charListLe, hxz, hzx, if_false] at h2 ⊢
                exact ih ys zs h1 h2

instance : IsTotal String pyStrLe :=
  ⟨fun a b => charListLe_total a.data b.data⟩

instance : IsTrans String pyStrLe :=
  ⟨fun a b c => charListLe_trans a.data b.data c.data⟩

theorem mem_uniqueFirst (l : List String) (a : String) : a ∈ uniqueFirst l ↔ a ∈ l := by
  unfold uniqueFirst
  rw [uniqueFirst_aux_mem]
  simp

theorem uniqueFirst_nodup (l : List String) : (uniqueFirst l).Nodup :=
  uniqueFirst_aux_nodup l [] List.nodup_nil

theorem uniqueFirst_length_eq_card (l : List String) :
    (uniqueFirst l).length = l.toFinset.card := by
  have hset : (uniqueFirst l).toFinset = l.toFinset := by
    apply Finset.ext
    intro a
    simp [List.mem_toFinset, mem_uniqueFirst]
  rw [← hset, List.toFinset_card_of_nodup (uniqueFirst_nodup l)]

/-! ## Claim C7: `get_chat_stats` -/

/-- Claim C7: the stats are the row count, the number of distinct senders,
and a date range printed from the minimum and maximum non-null timestamps
(`N/A` when there are none, which covers the empty table). -/
theorem c7_stats_characterization (df : DataFrame)
    (hc : df.columns = ["timestamp", "sender", "message"]) :
    (get_chat_stats df).total_messages = df.rows.length ∧
    (get_chat_stats df).participants = (df.rows.map Message.sender).toFinset.card ∧
    (df.rows.filterMap Message.timestamp = [] →
      (get_chat_stats df).date_range = "N/A") ∧
    (df.rows.filterMap Message.timestamp ≠ [] →
      ∃ mn mx : DateTime, mn ∈ df.rows.filterMap Message.timestamp ∧
        mx ∈ df.rows.filterMap Message.timestamp ∧
        (∀ x ∈ df.rows.filterMap Message.timestamp, dtLeP mn x ∧ dtLeP x mx) ∧
        (get_chat_stats df).date_range = fmtDate mn ++ " - " ++ fmtDate mx) := by
  have hcol : "timestamp" ∈ df.columns := by rw [hc]; simp
  by_cases hrows : df.rows.isEmpty
  · have hnil : df.rows = [] := List.isEmpty_iff.mp hrows
    rw [get_chat_stats, if_pos hrows, hnil]
    refine ⟨rfl, by simp [uniqueFirst], fun _ => rfl, fun h => absurd (by simp) h⟩
  · rw [get_chat_stats, if_neg hrows, if_pos hcol]
    cases hfm : df.rows.filterMap Message.timestamp with
    | nil =>
      exact ⟨rfl, uniqueFirst_length_eq_card _, fun _ => rfl, fun h => absurd rfl h⟩
    | cons v vs =>
      refine ⟨rfl, uniqueFirst_length_eq_card _, fun h => (List.cons_ne_nil v vs h).elim,
        fun _ => ?_⟩
      refine ⟨vs.foldl dtMin v, vs.foldl dtMax v, ?_, ?_, ?_, rfl⟩
      · rcases (foldl_dtMin_spec vs v).1 with h | h
        · rw [h]; exact List.mem_cons_self v vs
        · exact List.mem_cons_of_mem v h
      · rcases (foldl_dtMax_spec vs v).1 with h | h
        · rw [h]; exact List.mem_cons_self v vs
        · exact List.mem_cons_of_mem v h
      · intro x hx
        rcases List.mem_cons.mp hx with rfl | hx2
        · exact ⟨(foldl_dtMin_spec vs x).2.1, (foldl_dtMax_spec vs x).2.1⟩
        · exact ⟨(foldl_dtMin_spec vs v).2.2 x hx2, (foldl_dtMax_spec vs v).2.2 x hx2⟩

/-- Witness for C7: a single message dated 2024-01-05, and the empty table. -/
theorem c7_witness :
    (get_chat_stats ⟨["timestamp", "sender", "message"],
        [⟨some ⟨2024, 1, 5, 10, 0, 0⟩, "Alice", "hi"⟩]⟩).total_messages = 1 ∧
    (get_chat_stats ⟨["timestamp", "sender", "message"],
        [⟨some ⟨2024, 1, 5, 10, 0, 0⟩, "Alice", "hi"⟩]⟩).participants = 1 ∧
    (get_chat_stats ⟨["timestamp", "sender", "message"],
        [⟨some ⟨2024, 1, 5, 10, 0, 0⟩, "Alice", "hi"⟩]⟩).date_range =
      "Jan 05, 2024 - Jan 05, 2024" ∧
    get_chat_stats ⟨["timestamp", "sender", "message"], []⟩ = ⟨0, 0, "N/A"⟩ := by
  refine ⟨?_, ?_, by decide, by decide⟩
  · exact (c7_stats_characterization _ rfl).1.trans (by decide)
  · exact (c7_stats_characterization ⟨["timestamp", "sender", "message"],
      [⟨some ⟨2024, 1, 5, 10, 0, 0⟩, "Alice", "hi"⟩]⟩ rfl).2.1.trans (by decide)

/-! ## Claim C8: `get_participants` -/

/-- Claim C8: the participant list has no duplicates, is sorted ascending,
contains exactly the senders of the table, and is empty for the empty
table. -/
theorem c8_participants_sorted (df : DataFrame) (hc : "sender" ∈ df.columns) :
    (get_participants df).Nodup ∧
    List.Sorted pyStrLe (get_participants df) ∧
    (∀ s : String, s ∈ get_participants df ↔ s ∈ df.rows.map Message.sender) ∧
    (df.rows = [] → get_participants df = []) := by
  by_cases hrows : df.rows.isEmpty
  · have hnil : df.rows = [] := List.isEmpty_iff.mp hrows
    rw [get_participants, if_pos (Or.inl hrows)]
    exact ⟨List.nodup_nil, List.sorted_nil, fun s => by simp [hnil], fun _ => rfl⟩
  · rw [get_participants, if_neg (by push_neg; exact ⟨hrows, hc⟩)]
    have hperm := List.perm_insertionSort pyStrLe
      (uniqueFirst (df.rows.map Message.sender))
    refine ⟨?_, ?_, ?_, ?_⟩
    · exact hperm.nodup_iff.mpr (uniqueFirst_nodup _)
    · exact List.sorted_insertionSort _ _
    · intro s
      rw [hperm.mem_iff, mem_uniqueFirst]
    · intro h
      rw [h] at hrows
      simp at hrows

/-- Witness for C8 at a concrete table with a duplicate sender. -/
theorem c8_witness :
    List.Sorted pyStrLe
      (get_participants ⟨["timestamp", "sender", "message"],
        [⟨none, "Bob", "x"⟩, ⟨none, "Alice", "y"⟩, ⟨none, "Bob", "z"⟩]⟩) :=
  (c8_participants_sorted ⟨["timestamp", "sender", "message"],
    [⟨none, "Bob", "x"⟩, ⟨none, "Alice", "y"⟩, ⟨none, "Bob", "z"⟩]⟩ (by decide)).2.1

/-! ## Claims C9 and C10: `count_word` -/

/-- Claim C9: the total is the sum of case-insensitive occurrence counts of
the term over the message field, restricted to the rows of the given
participant when a real one is supplied (`None`, the empty string and the
sentinel `'All'` mean no restriction); and the documented pizza example. -/
theorem c9_count_word_totals :
    (∀ (df : DataFrame) (word p : String), "message" ∈ df.columns →
        p ≠ "" → p ≠ "All" →
        (count_word df word (some p)).total =
          ((df.rows.filter (fun m : Message => decide (m.sender = p))).map
            (fun m : Message => pyCountMatches word m.message)).sum) ∧
    (∀ (df : DataFrame) (word : String), "message" ∈ df.columns →
        (count_word df word none).total =
          (df.rows.map (fun m : Message => pyCountMatches word m.message)).sum) ∧
    count_word ⟨["timestamp", "sender", "message"],
        [⟨none, "Alice", "i love pizza"⟩, ⟨none, "Bob", "PIZZA is great"⟩]⟩ "pizza" none =
      ⟨2, [("Alice", 1), ("Bob", 1)]⟩ := by
  refine ⟨?_, ?_, by decide⟩
  · intro df word p hcol hp1 hp2
    by_cases hrows : df.rows.isEmpty
    · have hnil : df.rows = [] := List.isEmpty_iff.mp hrows
      simp [count_word, hrows, hnil]
    · have h1 : ¬ (df.rows.isEmpty ∨ "message" ∉ df.columns) :=
        fun h => h.elim hrows (fun hn => hn hcol)
      simp only [count_word, if_neg h1, filterRows,
        if_pos (show p ≠ "" ∧ p ≠ "All" from ⟨hp1, hp2⟩)]
      by_cases hf : (df.rows.filter (fun m : Message => decide (m.sender = p))).isEmpty
      · rw [if_pos hf, List.isEmpty_iff.mp hf]
        rfl
      · rw [if_neg hf, List.map_map]
        rfl
  · intro df word hcol
    by_cases hrows : df.rows.isEmpty
    · have hnil : df.rows = [] := List.isEmpty_iff.mp hrows
      simp [count_word, hrows, hnil]
    · have h1 : ¬ (df.rows.isEmpty ∨ "message" ∉ df.columns) :=
        fun h => h.elim hrows (fun hn => hn hcol)
      simp only [count_word, if_neg h1, filterRows, if_neg hrows]
      rw [List.map_map]
      rfl

/-- Witness for C9 with a participant restriction. -/
theorem c9_witness :
    (count_word ⟨["timestamp", "sender", "message"],
        [⟨none, "Alice", "i love pizza"⟩, ⟨none, "Bob", "PIZZA is great"⟩]⟩
        "pizza" (some "Alice")).total =
      ((List.filter (fun m : Message => decide (m.sender = "Alice"))
          [⟨none, "Alice", "i love pizza"⟩, ⟨none, "Bob", "PIZZA is great"⟩]).map
        (fun m : Message => pyCountMatches "pizza" m.message)).sum :=
  c9_count_word_totals.1 ⟨["timestamp", "sender", "message"],
    [⟨none, "Alice", "i love pizza"⟩, ⟨none, "Bob", "PIZZA is great"⟩]⟩ "pizza" "Alice"
    (by decide) (by decide) (by decide)

instance : IsTotal (String × Nat) (fun a b => b.2 ≤ a.2) :=
  ⟨fun a b => Nat.le_total b.2 a.2⟩

instance : IsTrans (String × Nat) (fun a b => b.2 ≤ a.2) :=
  ⟨fun _ _ _ h1 h2 => le_trans h2 h1⟩

/-- Positivity and descending order of a sorted-then-filtered list. -/
theorem sorted_filter_pos (grouped : List (String × Nat)) :
    (∀ e ∈ (List.insertionSort (fun a b : String × Nat => b.2 ≤ a.2) grouped).filter
        (fun e : String × Nat => decide (0 < e.2)), 0 < e.2) ∧
    List.Sorted (fun a b : String × Nat => b.2 ≤ a.2)
      ((List.insertionSort (fun a b : String × Nat => b.2 ≤ a.2) grouped).filter
        (fun e : String × Nat => decide (0 < e.2))) := by
  constructor
  · intro e he
    have := (List.mem_filter.mp he).2
    exact of_decide_eq_true this
  · exact List.Pairwise.filter _ (List.sorted_insertionSort _ grouped)

/-- Claim C10: `by_participant` holds only strictly positive counts, in
non-increasing count order. -/
theorem c10_by_participant_positive_sorted (df : DataFrame) (word : String)
    (participant : Option String) :
    (∀ e ∈ (count_word df word participant).by_participant, 0 < e.2) ∧
    List.Sorted (fun a b : String × Nat => b.2 ≤ a.2)
      (count_word df word participant).by_participant := by
  by_cases h1 : df.rows.isEmpty ∨ "message" ∉ df.columns
  · simp only [count_word, if_pos h1]
    exact ⟨by simp, List.sorted_nil⟩
  · by_cases h2 : (filterRows df.rows participant).isEmpty
    · simp only [count_word, if_neg h1, if_pos h2]
      exact ⟨by simp, List.sorted_nil⟩
    · simp only [count_word, if_neg h1, if_neg h2]
      exact sorted_filter_pos _

end ChatStalker
